import Mathlib

/-!
Verification development for the AI-Task-Planner execution-simulation core.

This file shallowly embeds the parts of the repository needed to settle the
frozen claims:

* `models.py` — `TaskStatus`, `AgentType`, `Task`, `Project`, the
  request/response models (wall-clock timestamp fields `created_at` /
  `updated_at` carry `datetime.now()` values and are abstracted away; all
  simulated-time arithmetic is modelled exactly, in rational minutes).
* `agents/base_agent.py` — `BaseAgent.assign_task`,
  `BaseAgent.get_max_concurrent_tasks` (no subclass overrides either).
* `services/execution_simulation_service.py` — the scheduler
  `_sort_tasks_for_execution`, the dependency checks, agent selection,
  the round loop `_simulate_autonomous_execution` and its helpers, the
  metrics (`_calculate_final_status`, `_calculate_remaining_hours`), and
  `simulate_execution` / `_load_project`.

Python dynamic typing matters in one place: the `simulation_state` dict
literal in `simulate_execution` contains the key `"completed_tasks"` twice,
first bound to `0` and later to `[]`; Python keeps the later binding, so at
runtime the slot holds a list.  The slot is therefore modelled as a dynamic
value (`PyVal`), and the integer operations the service applies to it
(`+= 1`, `total - completed`, `completed / total`) are modelled as fallible
operations returning `Except PyErr`, exactly as they raise `TypeError` in
Python.  External calls (the LLM assignment oracle, `agent.process_task`)
are modelled by a behaviour parameter mapping call indices to outcomes.
-/

namespace AITaskPlanner

/-- `models.TaskStatus` enumeration. -/
inductive TaskStatus
  | pending
  | inProgress
  | completed
  | blocked
  | cancelled
  deriving DecidableEq, Repr

/-- `models.AgentType` enumeration. -/
inductive AgentType
  | planner
  | analyzer
  | developer
  | tester
  | reviewer
  | coordinator
  deriving DecidableEq, Repr

/-- The `.value` string of an `AgentType` member. -/
def AgentType.value : AgentType → String
  | .planner => "planner"
  | .analyzer => "analyzer"
  | .developer => "developer"
  | .tester => "tester"
  | .reviewer => "reviewer"
  | .coordinator => "coordinator"

/-- The members of `AgentType`, in declaration order (Python iteration order). -/
def agentTypeList : List AgentType :=
  [.planner, .analyzer, .developer, .tester, .reviewer, .coordinator]

/-- `models.Task`.  `estimated_hours` is `Optional[float]`, modelled over `ℚ`;
the wall-clock `created_at`/`updated_at` fields are abstracted away;
`metadata : Dict[str, Any]` is modelled as a string-valued association list
(the service only ever reads `metadata["category"]`, and only to build the
payload of the external oracle call). -/
structure Task where
  id : String
  title : String
  description : String
  status : TaskStatus := .pending
  priority : Int := 1
  estimatedHours : Option ℚ := none
  assignedAgent : Option AgentType := none
  dependencies : List String := []
  subtasks : List String := []
  parentTask : Option String := none
  metadata : List (String × String) := []
  deriving DecidableEq, Repr

/-- `models.Project` (agent descriptors and timestamps omitted: they are not
read by any of the embedded code paths). -/
structure Project where
  id : String
  name : String
  description : String
  tasks : List Task := []
  deriving DecidableEq, Repr

/-- `models.AgentExecutionRequest`. -/
structure AgentExecutionRequest where
  projectId : String
  simulationMode : Bool := true
  maxConcurrentTasks : Int := 3
  deriving DecidableEq, Repr

/-! ## The topological scheduler (`_sort_tasks_for_execution`) -/

/-- One step of Python's stable `list.sort(key=lambda t: t.priority,
reverse=True)`: insert `t` in front of the first element whose priority is
not greater, so that elements of equal priority keep their original order. -/
def insertByPriorityDesc (t : Task) : List Task → List Task
  | [] => [t]
  | x :: xs => if t.priority < x.priority then x :: insertByPriorityDesc t xs else t :: x :: xs

/-- Python's `tasks.sort(key=lambda t: t.priority, reverse=True)`: a stable
sort by descending priority. -/
def pySortByPriorityDesc (ts : List Task) : List Task :=
  ts.foldr insertByPriorityDesc []

/-- The ready test of `_sort_tasks_for_execution`:
`not task.dependencies or all(dep_id in [t.id for t in sorted_tasks] for dep_id in task.dependencies)`. -/
def readyForOrder (sortedTasks : List Task) (t : Task) : Bool :=
  t.dependencies.isEmpty ||
    t.dependencies.all (fun d => (sortedTasks.map Task.id).contains d)

/-- The `while remaining_tasks:` loop of `_sort_tasks_for_execution`.  Each
iteration either removes one element of `remaining` or drains it entirely, so
running with `fuel = remaining.length` performs exactly the Python loop. -/
def sortTasksGo : ℕ → List Task → List Task → List Task
  | 0, _, sortedTasks => sortedTasks
  | fuel + 1, remaining, sortedTasks =>
    if remaining.isEmpty then sortedTasks
    else
      match pySortByPriorityDesc (remaining.filter (readyForOrder sortedTasks)) with
      | [] => sortedTasks ++ pySortByPriorityDesc remaining
      | t :: _ => sortTasksGo fuel (remaining.erase t) (sortedTasks ++ [t])

/-- `ExecutionSimulationService._sort_tasks_for_execution`. -/
def sortTasksForExecution (tasks : List Task) : List Task :=
  sortTasksGo tasks.length tasks []

/-! ## Python dynamic values and the exceptions the service can raise -/

/-- The Python exceptions raised by the embedded code paths. -/
inductive PyErr
  | typeError
  | attributeError
  | keyError
  | zeroDivisionError
  deriving DecidableEq, Repr

/-- The runtime value held in `simulation_state["completed_tasks"]`.  The
dict literal binds the key twice (`0`, then `[]`); Python keeps the later
binding, so the slot holds a list, but the service also applies integer
operations to it, so the slot is modelled dynamically. -/
inductive PyVal
  | int (n : Int)
  | list (ts : List Task)
  deriving DecidableEq, Repr

/-- Python `v += 1` on a dynamic value: `TypeError` on a list. -/
def pyValIAddOne : PyVal → Except PyErr PyVal
  | .int n => .ok (.int (n + 1))
  | .list _ => .error .typeError

/-- Python `v.append(task)` on a dynamic value: `AttributeError` on an int. -/
def pyValAppend (v : PyVal) (t : Task) : Except PyErr PyVal :=
  match v with
  | .int _ => .error .attributeError
  | .list ts => .ok (.list (ts ++ [t]))

/-- Python `n - v` with `n : int` and `v` dynamic: `TypeError` on a list. -/
def pySubIntPyVal (n : Int) (v : PyVal) : Except PyErr Int :=
  match v with
  | .int m => .ok (n - m)
  | .list _ => .error .typeError

/-- Python `v / n` with `v` dynamic and `n : int`: `TypeError` on a list,
`ZeroDivisionError` when `n = 0`. -/
def pyDivPyValNat (v : PyVal) (n : ℕ) : Except PyErr ℚ :=
  match v with
  | .list _ => .error .typeError
  | .int m => if n = 0 then .error .zeroDivisionError else .ok ((m : ℚ) / (n : ℚ))

/-- Python dict read `d[k]` on a string-keyed int dict (association list,
first binding wins, as every key occurs at most once in the modelled dicts). -/
def pyDictGet (d : List (String × Int)) (k : String) : Option Int :=
  (d.find? (fun e => e.1 == k)).map Prod.snd

/-- `pyDictGet` as a Python subscript: `KeyError` when the key is absent. -/
def pyDictGetE (d : List (String × Int)) (k : String) : Except PyErr Int :=
  match pyDictGet d k with
  | none => .error .keyError
  | some v => .ok v

/-- Python dict write `d[k] = v` for an existing key: the binding is updated
in place (every key the service writes is present in the initial dict). -/
def pyDictSet (d : List (String × Int)) (k : String) (v : Int) : List (String × Int) :=
  d.map (fun e => if e.1 == k then (e.1, v) else e)

/-! ## Simulation state, log entries, agent pool -/

/-- One structured entry of `simulation_state["execution_log"]`, one
constructor per `_log_*` helper of the service.  Timestamps are the simulated
clock in minutes. -/
inductive LogEntry
  | state (timestamp : ℚ) (message : String) (runningTasks queuedTasks : ℕ)
      (completedTasks : PyVal)
  | taskStart (timestamp : ℚ) (taskId taskTitle agentType : String) (estimatedHours : ℚ)
  | taskProgress (timestamp : ℚ) (taskId taskTitle agentType : String) (progressPercentage : ℚ)
  | taskProcessing (timestamp : ℚ) (taskId taskTitle agentType : String) (processingResult : String)
  | taskCompletion (timestamp : ℚ) (taskId taskTitle agentType : String)
  | error (timestamp : ℚ) (message : String)
  deriving DecidableEq, Repr

/-- One entry of `simulation_state["running_tasks"]` (`task_info`); the
`agent_id` field (a fresh UUID) is abstracted away. -/
structure RunningInfo where
  task : Task
  agentType : AgentType
  startTime : ℚ
  deriving DecidableEq, Repr

/-- The `simulation_state` dict of `simulate_execution`.  `completedTasks`
is the single slot behind the duplicated `"completed_tasks"` key.  The
wall-clock `datetime.now()` start is abstracted to simulated minute `0`;
`llmCalls` and `procCalls` are model bookkeeping: they index the successive
calls to the external oracle (`suggest_agent_assignment`) and to
`agent.process_task`, whose outcomes are supplied by a behaviour parameter. -/
structure SimState where
  projectId : String
  startTime : ℚ
  currentTime : ℚ
  completedTasks : PyVal
  totalTasks : ℕ
  executionLog : List LogEntry
  agentWorkloads : List (String × Int)
  taskQueue : List Task
  runningTasks : List RunningInfo
  failedTasks : List Task
  llmCalls : ℕ
  procCalls : ℕ
  deriving DecidableEq, Repr

/-- Mutable state of a `BaseAgent` (its UUID and wall-clock log timestamps
are abstracted away; the log keeps the messages). -/
structure AgentState where
  currentTasks : List String
  isAvailable : Bool
  executionLog : List String
  deriving DecidableEq, Repr

/-- The service's `self.agents` registry: one `BaseAgent` per type. -/
structure AgentPool where
  planner : AgentState
  analyzer : AgentState
  developer : AgentState
  tester : AgentState
  reviewer : AgentState
  coordinator : AgentState
  deriving DecidableEq, Repr

/-- Registry lookup `self.agents[agent_type]`. -/
def AgentPool.get (p : AgentPool) : AgentType → AgentState
  | .planner => p.planner
  | .analyzer => p.analyzer
  | .developer => p.developer
  | .tester => p.tester
  | .reviewer => p.reviewer
  | .coordinator => p.coordinator

/-- Replace the agent of one type (Python mutates the agent in place). -/
def AgentPool.set (p : AgentPool) : AgentType → AgentState → AgentPool
  | .planner, a => { p with planner := a }
  | .analyzer, a => { p with analyzer := a }
  | .developer, a => { p with developer := a }
  | .tester, a => { p with tester := a }
  | .reviewer, a => { p with reviewer := a }
  | .coordinator, a => { p with coordinator := a }

/-- A fresh agent (`BaseAgent.__init__`): no current tasks, available. -/
def freshAgent : AgentState := { currentTasks := [], isAvailable := true, executionLog := [] }

/-- The pool built by `ExecutionSimulationService.__init__`. -/
def initialAgentPool : AgentPool :=
  { planner := freshAgent, analyzer := freshAgent, developer := freshAgent,
    tester := freshAgent, reviewer := freshAgent, coordinator := freshAgent }

/-! ## BaseAgent operations (`agents/base_agent.py`) -/

/-- `BaseAgent.get_max_concurrent_tasks`: returns 3; no subclass overrides it. -/
def getMaxConcurrentTasks : ℕ := 3

/-- `BaseAgent.assign_task`.  Refuses (returns `false`, leaving agent and
task untouched) when the agent is unavailable or already holds
`get_max_concurrent_tasks()` tasks; otherwise records the task id, marks the
task in-progress and assigned, and logs.  The returned task is the mutated
Python `Task` object (its wall-clock `updated_at` write is abstracted away). -/
def assignTask (a : AgentState) (atype : AgentType) (t : Task) : Bool × AgentState × Task :=
  if !a.isAvailable || getMaxConcurrentTasks ≤ a.currentTasks.length then
    (false, a, t)
  else
    (true,
     { a with
        currentTasks := a.currentTasks ++ [t.id],
        executionLog := a.executionLog ++ [s!"Assigned task {t.id}: {t.title}"] },
     { t with assignedAgent := some atype, status := .inProgress })

/-! ## Service logging helpers (`_log_*`) -/

/-- `_log_execution_state`. -/
def logExecutionState (st : SimState) (message : String) : SimState :=
  { st with executionLog := st.executionLog ++
      [.state st.currentTime message st.runningTasks.length st.taskQueue.length st.completedTasks] }

/-- `_log_task_start` (the logged estimate is `task.estimated_hours or 4`,
computed below by `effectiveEstimatedHours`). -/
def logTaskStart (t : Task) (atype : AgentType) (estHours : ℚ) (st : SimState) : SimState :=
  { st with executionLog := st.executionLog ++
      [.taskStart st.currentTime t.id t.title atype.value estHours] }

/-- `_log_task_progress`. -/
def logTaskProgress (t : Task) (atype : AgentType) (progress : ℚ) (st : SimState) : SimState :=
  { st with executionLog := st.executionLog ++
      [.taskProgress st.currentTime t.id t.title atype.value (progress * 100)] }

/-- `_log_task_processing`. -/
def logTaskProcessing (t : Task) (atype : AgentType) (summary : String) (st : SimState) : SimState :=
  { st with executionLog := st.executionLog ++
      [.taskProcessing st.currentTime t.id t.title atype.value summary] }

/-- `_log_task_completion`. -/
def logTaskCompletion (t : Task) (atype : AgentType) (st : SimState) : SimState :=
  { st with executionLog := st.executionLog ++
      [.taskCompletion st.currentTime t.id t.title atype.value] }

/-- `_log_error`. -/
def logError (message : String) (st : SimState) : SimState :=
  { st with executionLog := st.executionLog ++ [.error st.currentTime message] }

/-! ## Dependency checks and task lookup -/

/-- The body of `_are_dependencies_satisfied` once the completed list is in
hand: `all(dep_id in completed_task_ids for dep_id in task.dependencies)`,
with the `if not task.dependencies: return True` early exit. -/
def areDependenciesSatisfiedOver (completed : List Task) (t : Task) : Bool :=
  if t.dependencies.isEmpty then true
  else t.dependencies.all (fun d => (completed.map Task.id).contains d)

/-- `_are_dependencies_satisfied` against the dynamic
`simulation_state["completed_tasks"]` slot: the list comprehension
`[t.id for t in ...]` would raise `TypeError` on an int, but only after the
empty-dependencies early exit. -/
def areDependenciesSatisfied (t : Task) (st : SimState) : Except PyErr Bool :=
  if t.dependencies.isEmpty then .ok true
  else
    match st.completedTasks with
    | .int _ => .error .typeError
    | .list completed => .ok (areDependenciesSatisfiedOver completed t)

/-- The scan of `_find_next_available_task`: first queue task whose
dependencies are satisfied is popped (`queue.pop(i)`), earlier unsatisfied
tasks stay in place. -/
def findNextGo (st : SimState) : List Task → Except PyErr (Option (Task × List Task))
  | [] => .ok none
  | t :: rest => do
    let sat ← areDependenciesSatisfied t st
    if sat then
      .ok (some (t, rest))
    else do
      let r ← findNextGo st rest
      match r with
      | none => .ok none
      | some (t2, rest2) => .ok (some (t2, t :: rest2))

/-- `_find_next_available_task`: returns the popped task and the state with
the shortened queue, or `none`. -/
def findNextAvailableTask (st : SimState) : Except PyErr (Option (Task × SimState)) :=
  (findNextGo st st.taskQueue).map
    (fun r => r.map (fun p => (p.1, { st with taskQueue := p.2 })))

/-! ## Agent selection (`_select_agent_for_execution`) and external behaviour -/

/-- Outcome of one call to the external assignment oracle
(`llm_service.suggest_agent_assignment`): either the call raises, or it
returns a dict whose `"suggested_agent"` entry is the given optional string
(`suggestion.get("suggested_agent", "developer")` defaults a missing key). -/
inductive OracleOutcome
  | raises (msg : String)
  | returns (suggestedAgent : Option String)
  deriving DecidableEq, Repr

/-- Outcome of one call to `agent.process_task`: either it raises, or it
returns a dict whose `"summary"` entry is the given optional string. -/
inductive ProcessOutcome
  | raises (msg : String)
  | ok (summary : Option String)
  deriving DecidableEq, Repr

/-- Behaviour of the external collaborators across a run: outcome of the
`n`-th oracle call and of the `n`-th `process_task` call. -/
structure SimBehavior where
  selectOracle : ℕ → OracleOutcome
  processTask : ℕ → ProcessOutcome

/-- The `agent_mapping` dict of `_select_agent_for_execution`, as a partial
lookup (`.get(suggested_agent, AgentType.DEVELOPER)` supplies the default). -/
def agentMapping : String → Option AgentType
  | "planner" => some .planner
  | "analyzer" => some .analyzer
  | "developer" => some .developer
  | "tester" => some .tester
  | "reviewer" => some .reviewer
  | "coordinator" => some .coordinator
  | _ => none

/-- `_select_agent_for_execution`.  The whole body is wrapped in
`try/except`: an oracle exception is logged and degrades to `DEVELOPER`; a
normal return is mapped through `agent_mapping` with `DEVELOPER` as default
for a missing key or an unrecognized string.  The declared return type is
`Optional[AgentType]`, but every path returns an actual agent type. -/
def selectAgentForExecution (o : OracleOutcome) (st : SimState) :
    Option AgentType × SimState :=
  match o with
  | .raises msg => (some .developer, logError ("Error selecting agent: " ++ msg) st)
  | .returns suggested =>
    (some ((agentMapping (suggested.getD "developer")).getD .developer), st)

/-! ## Starting, advancing and completing tasks -/

/-- `task.estimated_hours or 4`: Python `or` replaces both `None` and the
falsy `0.0` by the default `4`. -/
def effectiveEstimatedHours (t : Task) : ℚ :=
  match t.estimatedHours with
  | none => 4
  | some h => if h = 0 then 4 else h

/-- `_simulate_task_processing`: the `process_task` call is wrapped in
`try/except`; success logs a `task_processing` entry with
`result.get("summary", "Processing completed")`, an exception logs an
`error` entry. -/
def simulateTaskProcessing (po : ProcessOutcome) (t : Task) (atype : AgentType)
    (st : SimState) : SimState :=
  match po with
  | .ok summary => logTaskProcessing t atype (summary.getD "Processing completed") st
  | .raises msg =>
    logError (s!"Error processing task {t.id} with " ++ atype.value ++ ": " ++ msg) st

/-- `_start_task_execution`.  On a successful `assign_task`: append to
`running_tasks`, increment the per-type workload (`KeyError` is impossible in
a real run since the dict is initialized for every type), log the start, then
simulate processing.  On refusal: re-insert the task at the front of the
queue and log an error. -/
def startTaskExecution (b : SimBehavior) (t : Task) (atype : AgentType)
    (st : SimState) (pool : AgentPool) : Except PyErr (SimState × AgentPool) :=
  match assignTask (pool.get atype) atype t with
  | (true, agent2, t2) => do
    let pool2 := pool.set atype agent2
    let st2 := { st with runningTasks := st.runningTasks ++ [RunningInfo.mk t2 atype st.currentTime] }
    let w ← pyDictGetE st2.agentWorkloads atype.value
    let st3 := { st2 with agentWorkloads := pyDictSet st2.agentWorkloads atype.value (w + 1) }
    let st4 := logTaskStart t2 atype (effectiveEstimatedHours t2) st3
    let st5 := simulateTaskProcessing (b.processTask st4.procCalls) t2 atype
      { st4 with procCalls := st4.procCalls + 1 }
    .ok (st5, pool2)
  | (false, _, _) =>
    .ok (logError (s!"Agent " ++ atype.value ++ s!" not available for task {t.id}")
          { st with taskQueue := t :: st.taskQueue }, pool)

/-- `_complete_task_simulation`: mark the task completed, append it to the
dynamic completed slot (`.append` on a list succeeds), floor-decrement the
per-type workload, log the completion. -/
def completeTaskSimulation (t : Task) (atype : AgentType) (st : SimState) :
    Except PyErr SimState := do
  let t2 := { t with status := TaskStatus.completed }
  let newCompleted ← pyValAppend st.completedTasks t2
  let st2 := { st with completedTasks := newCompleted }
  let w ← pyDictGetE st2.agentWorkloads atype.value
  let st3 := { st2 with agentWorkloads := pyDictSet st2.agentWorkloads atype.value (max 0 (w - 1)) }
  .ok (logTaskCompletion t2 atype st3)

/-- The `for task_info in running_tasks` loop of `_process_running_tasks`,
returning the updated state and the locally collected `completed_tasks` list
of task infos.  A finishing task runs `_complete_task_simulation` and then
`simulation_state["completed_tasks"] += 1`, which raises `TypeError`
because the slot holds a list; an unfinished task logs clamped progress. -/
def processRunningGo : List RunningInfo → SimState →
    Except PyErr (SimState × List RunningInfo)
  | [], st => .ok (st, [])
  | info :: rest, st => do
    let required := 60 * effectiveEstimatedHours info.task
    let elapsed := st.currentTime - info.startTime
    if required ≤ elapsed then do
      let st2 ← completeTaskSimulation info.task info.agentType st
      let newCompleted ← pyValIAddOne st2.completedTasks
      let st3 := { st2 with completedTasks := newCompleted }
      let (st4, done) ← processRunningGo rest st3
      .ok (st4, info :: done)
    else
      let progress := min (elapsed / required) 1
      processRunningGo rest (logTaskProgress info.task info.agentType progress st)

/-- `_process_running_tasks`: advance every running task, then remove the
finished infos from `running_tasks` (`running_tasks.remove(ti)` one by one). -/
def processRunningTasks (st : SimState) : Except PyErr SimState := do
  let (st2, done) ← processRunningGo st.runningTasks st
  .ok { st2 with runningTasks := done.foldl (fun l i => l.erase i) st2.runningTasks }

/-- The `for _ in range(available_slots)` loop of `_start_new_tasks`: stop on
an empty queue or no admissible task; a `None` agent selection would consume
the slot (`continue`); otherwise start the task. -/
def startNewTasksGo (b : SimBehavior) :
    ℕ → SimState → AgentPool → Except PyErr (SimState × AgentPool)
  | 0, st, pool => .ok (st, pool)
  | slots + 1, st, pool =>
    if st.taskQueue.isEmpty then .ok (st, pool)
    else do
      let r ← findNextAvailableTask st
      match r with
      | none => .ok (st, pool)
      | some (t, st2) =>
        match selectAgentForExecution (b.selectOracle st2.llmCalls)
            { st2 with llmCalls := st2.llmCalls + 1 } with
        | (none, st3) => startNewTasksGo b slots st3 pool
        | (some atype, st3) => do
          let (st4, pool2) ← startTaskExecution b t atype st3 pool
          startNewTasksGo b slots st4 pool2

/-- `_start_new_tasks`: `available_slots = max_concurrent_tasks -
len(running_tasks)` (Python `range` of a negative number is empty). -/
def startNewTasks (b : SimBehavior) (st : SimState) (pool : AgentPool)
    (maxConcurrentTasks : Int) : Except PyErr (SimState × AgentPool) :=
  startNewTasksGo b (maxConcurrentTasks - st.runningTasks.length).toNat st pool

/-! ## The round loop (`_simulate_autonomous_execution`) -/

/-- The dict returned by `_simulate_autonomous_execution`. -/
structure ExecutionResults where
  executionRounds : ℕ
  simulationDuration : ℚ
  success : Bool
  deriving DecidableEq, Repr

/-- `max_rounds = 50  # Prevent infinite loops`. -/
def maxRounds : ℕ := 50

/-- The `while (task_queue or running_tasks) and execution_rounds <
max_rounds` loop.  `fuel = maxRounds - rounds` makes the round cap
structural: fuel `0` is exactly `execution_rounds = max_rounds`.  Each round
logs the state, advances running tasks, admits new tasks, and moves the
clock forward 30 minutes; the `asyncio.sleep(0.1)` pause is abstracted. -/
def simulateRoundsGo (b : SimBehavior) (maxConcurrentTasks : Int) :
    ℕ → ℕ → SimState → AgentPool → Except PyErr (SimState × AgentPool × ℕ)
  | 0, rounds, st, pool => .ok (st, pool, rounds)
  | fuel + 1, rounds, st, pool =>
    if st.taskQueue.isEmpty && st.runningTasks.isEmpty then .ok (st, pool, rounds)
    else do
      let rounds2 := rounds + 1
      let stA := logExecutionState st (s!"Execution Round {rounds2}")
      let stB ← processRunningTasks stA
      let (stC, pool2) ← startNewTasks b stB pool maxConcurrentTasks
      simulateRoundsGo b maxConcurrentTasks fuel rounds2
        { stC with currentTime := stC.currentTime + 30 } pool2

/-- `_simulate_autonomous_execution` (also the body of `_execute_real_tasks`,
which delegates to it): run the rounds and build the results dict, with
`success = execution_rounds < max_rounds`. -/
def simulateAutonomousExecution (b : SimBehavior) (st : SimState) (pool : AgentPool)
    (maxConcurrentTasks : Int) : Except PyErr (SimState × AgentPool × ExecutionResults) := do
  let (st2, pool2, rounds) ← simulateRoundsGo b maxConcurrentTasks maxRounds 0 st pool
  .ok (st2, pool2,
    { executionRounds := rounds,
      simulationDuration := st2.currentTime - st2.startTime,
      success := decide (rounds < maxRounds) })

/-! ## Metrics and the top-level entry point -/

/-- The dict returned by `_calculate_final_status` for a found project, and
the `{"error": "Project not found"}` dict for the not-found early return. -/
inductive FinalStatus
  | errorStatus (message : String)
  | summary (totalTasks : ℕ) (completedTasks : PyVal) (failedTasks : ℕ)
      (remainingTasks : Int) (completionRate : ℚ) (executionDuration : ℚ)
      (agentWorkloads : List (String × Int)) (success : Bool)
  deriving DecidableEq, Repr

/-- `_calculate_final_status`.  The dict entries are evaluated in literal
order; `remaining_tasks = total_tasks - completed_tasks - failed_tasks`
evaluates `int - completed_tasks` first (`TypeError` on the list slot), and
`completion_rate` is guarded by `if total_tasks > 0 else 0`, which skips the
division entirely when there are no tasks. -/
def calculateFinalStatus (st : SimState) (results : ExecutionResults) :
    Except PyErr FinalStatus := do
  let totalTasks := st.totalTasks
  let completed := st.completedTasks
  let failedTasks := st.failedTasks.length
  let d1 ← pySubIntPyVal (totalTasks : Int) completed
  let remainingTasks := d1 - (failedTasks : Int)
  let completionRate ←
    if 0 < totalTasks then do
      let q ← pyDivPyValNat completed totalTasks
      Except.ok (q * 100)
    else Except.ok (0 : ℚ)
  .ok (.summary totalTasks completed failedTasks remainingTasks completionRate
        (st.currentTime - st.startTime) st.agentWorkloads results.success)

/-- `_calculate_remaining_hours`: estimates for queued tasks plus the
non-negative remainder for running tasks (elapsed minutes over 60). -/
def calculateRemainingHours (st : SimState) : ℚ :=
  let queueHours := st.taskQueue.foldl (fun acc t => acc + effectiveEstimatedHours t) 0
  st.runningTasks.foldl
    (fun acc info =>
      acc + max 0 (effectiveEstimatedHours info.task - (st.currentTime - info.startTime) / 60))
    queueHours

/-- `models.AgentExecutionResponse`. -/
structure AgentExecutionResponse where
  executionLog : List LogEntry
  finalStatus : FinalStatus
  completionPercentage : ℚ
  estimatedRemainingHours : ℚ
  deriving DecidableEq, Repr

/-- The `simulation_state` built by `simulate_execution` for a found
project.  The dict literal first sets `"task_queue"` to a copy of
`project.tasks` and `"completed_tasks"` to `0`, but the queue is immediately
replaced by the sorted tasks and the duplicated `"completed_tasks"` key ends
up holding `[]`; the initializer below is the state as it enters the loop. -/
def initialSimulationState (project : Project) : SimState :=
  { projectId := project.id,
    startTime := 0,
    currentTime := 0,
    completedTasks := PyVal.list [],
    totalTasks := project.tasks.length,
    executionLog := [],
    agentWorkloads := agentTypeList.map (fun a => (a.value, (0 : Int))),
    taskQueue := sortTasksForExecution project.tasks,
    runningTasks := [],
    failedTasks := [],
    llmCalls := 0,
    procCalls := 0 }

/-- The body of `simulate_execution` after a successful project load: run
the loop (simulation and "real" mode share it), build the final status,
then `completion_percentage = (completed_tasks / total_tasks) * 100` on the
dynamic slot, then the remaining-hours estimate. -/
def simulateWithProject (b : SimBehavior) (project : Project)
    (request : AgentExecutionRequest) : Except PyErr AgentExecutionResponse := do
  let st0 := initialSimulationState project
  let (st, _pool, results) ←
    simulateAutonomousExecution b st0 initialAgentPool request.maxConcurrentTasks
  let finalStatus ← calculateFinalStatus st results
  let pct ← pyDivPyValNat st.completedTasks st.totalTasks
  .ok { executionLog := st.executionLog,
        finalStatus := finalStatus,
        completionPercentage := pct * 100,
        estimatedRemainingHours := calculateRemainingHours st }

/-- `_load_project`: the placeholder always returns `None` ("For now, return
None as we don't have a project storage system"). -/
def loadProject (_projectId : String) : Option Project := none

/-- The project-not-found response of `simulate_execution`. -/
def projectNotFoundResponse : AgentExecutionResponse :=
  { executionLog := [],
    finalStatus := .errorStatus "Project not found",
    completionPercentage := 0,
    estimatedRemainingHours := 0 }

/-- `ExecutionSimulationService.simulate_execution`. -/
def simulateExecution (b : SimBehavior) (request : AgentExecutionRequest) :
    Except PyErr AgentExecutionResponse :=
  match loadProject request.projectId with
  | none => .ok projectNotFoundResponse
  | some project => simulateWithProject b project request

/-! ## Predicates used by the claim statements -/

/-- Every agent of the pool holds at most `get_max_concurrent_tasks()`
concurrently assigned tasks. -/
def poolCapacityOK (pool : AgentPool) : Prop :=
  ∀ atype, (pool.get atype).currentTasks.length ≤ getMaxConcurrentTasks

/-- A task ordering is topologically sound: every dependency of the task at
position `i` is the id of some task strictly before position `i`. -/
def topoOK (l : List Task) : Prop :=
  ∀ i, (hi : i < l.length) → ∀ d ∈ (l.get ⟨i, hi⟩).dependencies,
    d ∈ (l.take i).map Task.id

/-! ## Concrete inputs used by counterexamples and witnesses -/

/-- External behaviour in which the oracle returns a dict without a
`"suggested_agent"` key and task processing succeeds. -/
def defaultBehavior : SimBehavior :=
  { selectOracle := fun _ => .returns none, processTask := fun _ => .ok none }

/-- A single dependency-free one-hour task. -/
def simpleTask : Task :=
  { id := "t1", title := "T1", description := "one task", estimatedHours := some 1 }

/-- A found project with exactly one task. -/
def simpleProject : Project :=
  { id := "p1", name := "P1", description := "one-task project", tasks := [simpleTask] }

/-- A found project with zero tasks. -/
def emptyProject : Project :=
  { id := "p0", name := "P0", description := "task-free project" }

/-- A one-hour task whose only dependency id occurs nowhere in any task set
it is used in (a dangling dependency). -/
def danglingTask : Task :=
  { id := "g", title := "G", description := "dangling dep", dependencies := ["ghost"],
    estimatedHours := some 1 }

/-- A found project whose only task has a dangling dependency. -/
def danglingProject : Project :=
  { id := "pd", name := "PD", description := "dangling project", tasks := [danglingTask] }

/-- An execution request with the model defaults (simulation mode, three
concurrent tasks). -/
def requestFor (pid : String) : AgentExecutionRequest := { projectId := pid }

/-- An available agent already holding three task ids (at capacity). -/
def fullAgent : AgentState :=
  { currentTasks := ["x", "y", "z"], isAvailable := true, executionLog := [] }

/-- A dependency-free priority-1 task. -/
def indepTask : Task := { id := "low", title := "Low", description := "", priority := 1 }

/-- A priority-5 task whose only dependency is dangling. -/
def danglingHighTask : Task :=
  { id := "high", title := "High", description := "", priority := 5,
    dependencies := ["ghost"] }

/-- Task `a`: priority 1, with one dangling dependency. -/
def chainTaskA : Task :=
  { id := "a", title := "A", description := "", priority := 1, dependencies := ["ghost"] }

/-- Task `b`: priority 2, depending on the present task `a`. -/
def chainTaskB : Task :=
  { id := "b", title := "B", description := "", priority := 2, dependencies := ["a"] }

/-- A rank certificate for the acyclicity of the present-id dependency graph
of `[chainTaskA, chainTaskB]` and of `[topoTaskA, topoTaskB]`. -/
def rankAB (s : String) : ℕ := if s = "a" then 0 else 1

/-- Task `a` without dependencies (for the topological witness). -/
def topoTaskA : Task := { id := "a", title := "A", description := "", priority := 1 }

/-- Task `b` depending on the present task `a` (for the topological witness). -/
def topoTaskB : Task :=
  { id := "b", title := "B", description := "", priority := 2, dependencies := ["a"] }

/-- The simulation state after completing `simpleTask` with the developer
agent in the initial state of `simpleProject` (used as a concrete witness
for the workload-release formula). -/
def completedStateExample : SimState :=
  ((completeTaskSimulation simpleTask .developer
      (initialSimulationState simpleProject)).toOption).getD
    (initialSimulationState simpleProject)

/-- Equality of `Except` results is decidable componentwise (used to settle
concrete runs of the embedded service by evaluation). -/
instance instDecidableEqExcept {ε α : Type} [DecidableEq ε] [DecidableEq α] :
    DecidableEq (Except ε α) := fun a b =>
  match a, b with
  | .error e1, .error e2 =>
    if h : e1 = e2 then .isTrue (by rw [h]) else .isFalse (by simp [h])
  | .error _, .ok _ => .isFalse (by simp)
  | .ok _, .error _ => .isFalse (by simp)
  | .ok v1, .ok v2 =>
    if h : v1 = v2 then .isTrue (by rw [h]) else .isFalse (by simp [h])

/-!
# Theorems

First the claims settled by concrete evaluation of the embedded service,
then the scheduler lemmas and the remaining claims.
-/

/-- C10: `_load_project` is a stub returning `None` for every id, so every
call to `simulate_execution` returns the project-not-found response: empty
execution log, final status `{"error": "Project not found"}`, completion
percentage 0.0, estimated remaining hours 0.0. -/
theorem simulateExecution_always_not_found (b : SimBehavior)
    (request : AgentExecutionRequest) :
    loadProject request.projectId = none ∧
    simulateExecution b request =
      .ok { executionLog := [],
            finalStatus := .errorStatus "Project not found",
            completionPercentage := 0,
            estimatedRemainingHours := 0 } :=
  ⟨rfl, rfl⟩

/-- C1 (code bug): the claim promises that a found project always yields a
structured response, but the duplicated `"completed_tasks"` key leaves a
Python list in the slot, and the run raises `TypeError`: here, a one-task
project raises inside `_process_running_tasks` (`+= 1` on the list) the
round its task completes. -/
theorem simulateWithProject_raises_on_found_project :
    simulateWithProject defaultBehavior simpleProject (requestFor "p1") =
      .error .typeError := by
  with_unfolding_all decide

/-- C4 (code bug): at loop level, a run whose only task is never admissible
does stop at the 50-round cap with `success = false` (first conjunct), but a
run whose task completes aborts the loop with `TypeError` in round 3 — with
the running set still non-empty and the cap unreached (second conjunct) —
and even a capped run returns no partial results, because
`_calculate_final_status` raises on `total_tasks - completed_tasks` (third
conjunct). -/
theorem roundLoop_cap_exception_and_lost_results :
    (simulateAutonomousExecution defaultBehavior
        (initialSimulationState danglingProject) initialAgentPool 3).map
        (fun r => (r.2.2.executionRounds, r.2.2.success)) = .ok (50, false)
    ∧ simulateAutonomousExecution defaultBehavior
        (initialSimulationState simpleProject) initialAgentPool 3 =
        .error .typeError
    ∧ simulateWithProject defaultBehavior danglingProject (requestFor "pd") =
        .error .typeError := by
  refine ⟨by with_unfolding_all decide, by with_unfolding_all decide,
    by with_unfolding_all decide⟩

/-- C6 (code bug): for a found project with zero tasks the claim promises
completion percentage 0, but the run raises `TypeError`:
`_calculate_final_status` evaluates `total_tasks - completed_tasks` on the
list-valued slot (and even with an integer slot,
`completion_percentage = completed / total * 100` in `simulate_execution`
would raise `ZeroDivisionError`, unlike the guarded `completion_rate`). -/
theorem zeroTask_project_raises :
    emptyProject.tasks.length = 0 ∧
    simulateWithProject defaultBehavior emptyProject (requestFor "p0") =
      .error .typeError ∧
    pyDivPyValNat (PyVal.int 0) 0 = .error .zeroDivisionError := by
  refine ⟨rfl, by with_unfolding_all decide, rfl⟩

/-- C9: agent selection never aborts the simulation: for every oracle
outcome it yields some agent type; an oracle exception logs one error entry
and degrades to `Developer`, and an unrecognized or missing suggestion
string also degrades to `Developer`. -/
theorem selectAgent_total_and_defaults (o : OracleOutcome) (st : SimState) :
    (∃ a : AgentType, (selectAgentForExecution o st).1 = some a)
    ∧ (∀ msg, o = .raises msg →
        (selectAgentForExecution o st).1 = some .developer ∧
        (selectAgentForExecution o st).2.executionLog.length =
          st.executionLog.length + 1)
    ∧ (∀ s, o = .returns (some s) → agentMapping s = none →
        (selectAgentForExecution o st).1 = some .developer)
    ∧ (o = .returns none → (selectAgentForExecution o st).1 = some .developer) := by
  refine ⟨?_, ?_, ?_, ?_⟩
  · cases o with
    | raises msg => exact ⟨.developer, rfl⟩
    | returns suggested =>
      exact ⟨(agentMapping (suggested.getD "developer")).getD .developer, rfl⟩
  · rintro msg rfl
    exact ⟨rfl, by simp [selectAgentForExecution, logError]⟩
  · rintro s rfl hmap
    simp [selectAgentForExecution, hmap]
  · rintro rfl
    rfl

/-- Witness for `selectAgent_total_and_defaults` at concrete inputs: an
oracle exception and an unrecognized string both select `Developer`. -/
theorem selectAgent_total_and_defaults_witness :
    (selectAgentForExecution (.raises "oracle down")
        (initialSimulationState emptyProject)).1 = some .developer ∧
    (selectAgentForExecution (.returns (some "wizard"))
        (initialSimulationState emptyProject)).1 = some .developer :=
  ⟨((selectAgent_total_and_defaults (.raises "oracle down")
        (initialSimulationState emptyProject)).2.1 "oracle down" rfl).1,
   (selectAgent_total_and_defaults (.returns (some "wizard"))
        (initialSimulationState emptyProject)).2.2.1 "wizard" rfl (by decide)⟩

/-! ## Scheduler helper lemmas (shared by several claims) -/

/-- Stable descending insertion permutes. -/
theorem insertByPriorityDesc_perm (t : Task) (l : List Task) :
    (insertByPriorityDesc t l).Perm (t :: l) := by
  induction l with
  | nil => simp [insertByPriorityDesc]
  | cons x xs ih =>
    by_cases h : t.priority < x.priority
    · simp only [insertByPriorityDesc, if_pos h]
      exact (ih.cons x).trans (List.Perm.swap t x xs)
    · simp [insertByPriorityDesc, h]

/-- The Python priority sort permutes its input. -/
theorem pySortByPriorityDesc_perm (ts : List Task) :
    (pySortByPriorityDesc ts).Perm ts := by
  induction ts with
  | nil => simp [pySortByPriorityDesc]
  | cons x xs ih =>
    exact (insertByPriorityDesc_perm x (pySortByPriorityDesc xs)).trans (ih.cons x)

/-- Membership transfers through the Python priority sort. -/
theorem mem_of_mem_pySortByPriorityDesc {t : Task} {ts : List Task}
    (h : t ∈ pySortByPriorityDesc ts) : t ∈ ts :=
  (pySortByPriorityDesc_perm ts).mem_iff.mp h

/-- The scheduler loop, run with fuel equal to the number of remaining
tasks (as `sortTasksForExecution` does), emits `sortedTasks` followed by a
permutation of `remaining`. -/
theorem sortTasksGo_perm :
    ∀ (fuel : ℕ) (remaining sortedTasks : List Task),
      remaining.length = fuel →
      (sortTasksGo fuel remaining sortedTasks).Perm (sortedTasks ++ remaining) := by
  intro fuel
  induction fuel with
  | zero =>
    intro remaining sortedTasks h
    rw [List.length_eq_zero] at h
    subst h
    simp [sortTasksGo]
  | succ n ih =>
    intro remaining sortedTasks h
    cases remaining with
    | nil => simp at h
    | cons r rs =>
      cases hready : pySortByPriorityDesc ((r :: rs).filter (readyForOrder sortedTasks)) with
      | nil =>
        have hstep : sortTasksGo (n + 1) (r :: rs) sortedTasks =
            sortedTasks ++ pySortByPriorityDesc (r :: rs) := by
          simp [sortTasksGo, hready]
        rw [hstep]
        exact List.Perm.append_left sortedTasks (pySortByPriorityDesc_perm (r :: rs))
      | cons t rest =>
        have htmem : t ∈ r :: rs := by
          have h1 : t ∈ pySortByPriorityDesc ((r :: rs).filter (readyForOrder sortedTasks)) := by
            rw [hready]; exact List.mem_cons_self t rest
          exact List.mem_of_mem_filter (mem_of_mem_pySortByPriorityDesc h1)
        have hstep : sortTasksGo (n + 1) (r :: rs) sortedTasks =
            sortTasksGo n ((r :: rs).erase t) (sortedTasks ++ [t]) := by
          simp [sortTasksGo, hready]
        have hlen : ((r :: rs).erase t).length = n := by
          rw [List.length_erase_of_mem htmem]
          simp only [List.length_cons] at h ⊢
          omega
        rw [hstep]
        have hperm := ih ((r :: rs).erase t) (sortedTasks ++ [t]) hlen
        refine hperm.trans ?_
        rw [List.append_assoc]
        exact List.Perm.append_left sortedTasks
          (List.singleton_append ▸ (List.perm_cons_erase htmem).symm)

/-- The scheduler's output is a permutation of its input. -/
theorem sortTasksForExecution_perm (ts : List Task) :
    (sortTasksForExecution ts).Perm ts := by
  simpa using sortTasksGo_perm ts.length ts [] rfl

/-- C7: on every task set — cyclic dependency graphs included — the
scheduler terminates (it is a total function whose loop fuel is exactly the
task count, the drain fallback `sortTasksGo`'s empty-ready branch breaking
any cycle in one shot) and its output contains every input task exactly
once: it is a permutation of the input. -/
theorem sortTasks_terminates_and_permutes (ts : List Task) :
    (sortTasksForExecution ts).Perm ts ∧
    ∀ t : Task, (sortTasksForExecution ts).count t = ts.count t :=
  ⟨sortTasksForExecution_perm ts,
   fun t => (sortTasksForExecution_perm ts).count_eq t⟩

/-- C8: the scheduler is deterministic — calling it twice on the same
unmutated task list yields the same ordering — and never mutates the `Task`
values: every output task is one of the input task values, the output being
a permutation of the input. -/
theorem sortTasks_deterministic_and_nonmutating (ts1 ts2 : List Task)
    (h : ts1 = ts2) :
    sortTasksForExecution ts1 = sortTasksForExecution ts2 ∧
    (∀ t ∈ sortTasksForExecution ts1, t ∈ ts1) ∧
    (sortTasksForExecution ts1).Perm ts1 :=
  ⟨by rw [h],
   fun t ht => (sortTasksForExecution_perm ts1).mem_iff.mp ht,
   sortTasksForExecution_perm ts1⟩

/-- Witness for `sortTasks_deterministic_and_nonmutating` on a concrete
one-task list. -/
theorem sortTasks_deterministic_and_nonmutating_witness :
    sortTasksForExecution [indepTask] = sortTasksForExecution [indepTask] ∧
    (∀ t ∈ sortTasksForExecution [indepTask], t ∈ [indepTask]) ∧
    (sortTasksForExecution [indepTask]).Perm [indepTask] :=
  sortTasks_deterministic_and_nonmutating [indepTask] [indepTask] rfl

/-- C2 counterexample: the claim says a task whose only dependency id is
absent from the task set is eligible as soon as its present dependencies
(here: none) are ordered, and admissible once its present dependencies are
completed.  For the concrete set `[indepTask, danglingHighTask]` the
dangling-dependency task has no present dependencies at all, yet the
scheduler's ready test rejects it with nothing ordered, the engine's
dependency check rejects it with nothing completed, and the scheduler
orders the priority-5 dangling task after the priority-1 independent task
(were the dangling id treated as satisfied, the ready subset of the first
iteration would contain it and its higher priority would place it first). -/
theorem dangling_dependency_claim_counterexample :
    danglingHighTask.dependencies.filter
        (fun d => ([indepTask, danglingHighTask].map Task.id).contains d) = []
    ∧ readyForOrder [] danglingHighTask = false
    ∧ areDependenciesSatisfiedOver [] danglingHighTask = false
    ∧ sortTasksForExecution [indepTask, danglingHighTask] =
        [indepTask, danglingHighTask]
    ∧ indepTask.priority < danglingHighTask.priority := by
  refine ⟨rfl, rfl, rfl, by decide, by decide⟩

/-- C2 amended: a dangling dependency id is never treated as satisfied.
Whenever a task has a dependency id absent from the whole task set, the
scheduler's ready test rejects the task at every iteration (the ordered
output only ever holds tasks of the set), so such a task is emitted only by
the drain fallback; likewise the engine's `_are_dependencies_satisfied`
rejects it in every state whose completed tasks are drawn from the set. -/
theorem dangling_dependency_never_satisfied (ts sortedTasks completed : List Task)
    (t : Task) (d : String) (hd : d ∈ t.dependencies)
    (hdangling : d ∉ ts.map Task.id)
    (hsorted : ∀ s ∈ sortedTasks, s ∈ ts)
    (hcompleted : ∀ c ∈ completed, c ∈ ts) :
    readyForOrder sortedTasks t = false ∧
    areDependenciesSatisfiedOver completed t = false := by
  have hne : t.dependencies.isEmpty = false := by
    cases hdep : t.dependencies with
    | nil => rw [hdep] at hd; cases hd
    | cons a l => rfl
  have hnotin : ∀ l : List Task, (∀ s ∈ l, s ∈ ts) →
      ((l.map Task.id).contains d) = false := by
    intro l hl
    cases hc : (l.map Task.id).contains d with
    | false => rfl
    | true =>
      exfalso
      have hmem : d ∈ l.map Task.id := by
        have := List.elem_iff.mp hc
        exact this
      obtain ⟨s, hs, hsid⟩ := List.mem_map.mp hmem
      exact hdangling (List.mem_map.mpr ⟨s, hl s hs, hsid⟩)
  have hallfalse : ∀ l : List Task, (∀ s ∈ l, s ∈ ts) →
      (t.dependencies.all (fun x => (l.map Task.id).contains x)) = false := by
    intro l hl
    cases hall : t.dependencies.all (fun x => (l.map Task.id).contains x) with
    | false => rfl
    | true =>
      exfalso
      have := List.all_eq_true.mp hall d hd
      rw [hnotin l hl] at this
      cases this
  constructor
  · rw [readyForOrder, hne, hallfalse sortedTasks hsorted]
    rfl
  · rw [areDependenciesSatisfiedOver, hne]
    simpa using hallfalse completed hcompleted

/-- Witness for `dangling_dependency_never_satisfied`: the dangling task of
`danglingProject` is rejected by both checks in the empty initial state. -/
theorem dangling_dependency_never_satisfied_witness :
    readyForOrder [] danglingTask = false ∧
    areDependenciesSatisfiedOver [] danglingTask = false :=
  dangling_dependency_never_satisfied [danglingTask] [] [] danglingTask "ghost"
    (by decide) (by decide) (by intro s hs; cases hs) (by intro c hc; cases hc)

/-- C3 counterexample: the set `[chainTaskA, chainTaskB]` has an acyclic
dependency graph over present ids (certified by the rank `rankAB`; task
`a`'s other dependency is dangling), yet the scheduler orders `b` before
its present dependency `a`: no ready task exists in the first iteration, so
the drain fallback emits everything in priority order. -/
theorem topological_order_claim_counterexample :
    (∀ t ∈ [chainTaskA, chainTaskB], ∀ d ∈ t.dependencies,
        d ∈ [chainTaskA, chainTaskB].map Task.id → rankAB d < rankAB t.id)
    ∧ sortTasksForExecution [chainTaskA, chainTaskB] = [chainTaskB, chainTaskA]
    ∧ chainTaskA.id ∈ chainTaskB.dependencies := by
  refine ⟨by decide, by decide, by decide⟩

/-! ## Topological soundness of the scheduler without dangling dependencies -/

/-- The scheduler's ready test holds exactly when every dependency id is
among the ids already ordered. -/
theorem readyForOrder_eq_true_iff (sortedTasks : List Task) (t : Task) :
    readyForOrder sortedTasks t = true ↔
      ∀ d ∈ t.dependencies, d ∈ sortedTasks.map Task.id := by
  simp only [readyForOrder, Bool.or_eq_true, List.isEmpty_iff, List.all_eq_true]
  constructor
  · rintro (h | h)
    · intro d hd
      rw [h] at hd
      cases hd
    · intro d hd
      exact List.elem_iff.mp (h d hd)
  · intro h
    right
    intro d hd
    exact List.elem_iff.mpr (h d hd)

/-- Every non-empty task list has an element of minimal rank. -/
theorem exists_min_rank (rank : String → ℕ) :
    ∀ l : List Task, l ≠ [] → ∃ t ∈ l, ∀ u ∈ l, rank t.id ≤ rank u.id := by
  intro l
  induction l with
  | nil => intro h; cases h rfl
  | cons x xs ih =>
    intro _
    cases hxs : xs with
    | nil =>
      refine ⟨x, List.mem_cons_self x [], ?_⟩
      intro u hu
      rcases List.mem_singleton.mp hu with rfl
      exact le_refl _
    | cons y ys =>
      obtain ⟨t, htmem, htmin⟩ := ih (by simp [hxs])
      rw [← hxs] at *
      by_cases hle : rank x.id ≤ rank t.id
      · refine ⟨x, List.mem_cons_self x xs, ?_⟩
        intro u hu
        rcases List.mem_cons.mp hu with rfl | hu2
        · exact le_refl _
        · exact le_trans hle (htmin u hu2)
      · refine ⟨t, List.mem_cons_of_mem x htmem, ?_⟩
        intro u hu
        rcases List.mem_cons.mp hu with rfl | hu2
        · exact le_of_not_le hle
        · exact htmin u hu2

/-- When every dependency of a remaining task is either already ordered or
belongs to a remaining task, and the dependencies inside `remaining` are
rank-decreasing (the acyclicity certificate), some remaining task is ready:
the one of minimal rank. -/
theorem exists_ready_task (sortedTasks remaining : List Task) (rank : String → ℕ)
    (hne : remaining ≠ [])
    (hpres : ∀ t ∈ remaining, ∀ d ∈ t.dependencies,
      d ∈ sortedTasks.map Task.id ∨ d ∈ remaining.map Task.id)
    (hrank : ∀ t ∈ remaining, ∀ d ∈ t.dependencies,
      d ∈ remaining.map Task.id → rank d < rank t.id) :
    ∃ t ∈ remaining, readyForOrder sortedTasks t = true := by
  obtain ⟨t, htmem, htmin⟩ := exists_min_rank rank remaining hne
  refine ⟨t, htmem, (readyForOrder_eq_true_iff sortedTasks t).mpr ?_⟩
  intro d hd
  rcases hpres t htmem d hd with h | h
  · exact h
  · exfalso
    obtain ⟨u, humem, huid⟩ := List.mem_map.mp h
    have h1 : rank d < rank t.id := hrank t htmem d hd h
    have h2 : rank t.id ≤ rank u.id := htmin u humem
    rw [huid] at h2
    exact absurd (lt_of_lt_of_le h1 h2) (lt_irrefl _)

/-- Appending a task whose dependencies are all already ordered preserves
topological soundness. -/
theorem topoOK_append (sortedTasks : List Task) (t : Task)
    (hOK : topoOK sortedTasks)
    (ht : ∀ d ∈ t.dependencies, d ∈ sortedTasks.map Task.id) :
    topoOK (sortedTasks ++ [t]) := by
  intro i hi d hd
  have hlen : (sortedTasks ++ [t]).length = sortedTasks.length + 1 := by simp
  by_cases hcase : i < sortedTasks.length
  · have hget : (sortedTasks ++ [t]).get ⟨i, hi⟩ = sortedTasks.get ⟨i, hcase⟩ := by
      simp only [List.get_eq_getElem]
      exact List.getElem_append_left hcase
    have htake : (sortedTasks ++ [t]).take i = sortedTasks.take i :=
      List.take_append_of_le_length (le_of_lt hcase)
    rw [hget] at hd
    rw [htake]
    exact hOK i hcase d hd
  · have hieq : i = sortedTasks.length := by
      rw [hlen] at hi
      omega
    subst hieq
    have hget : (sortedTasks ++ [t]).get ⟨sortedTasks.length, hi⟩ = t := by
      simp [List.get_eq_getElem]
    have htake : (sortedTasks ++ [t]).take sortedTasks.length = sortedTasks :=
      List.take_left sortedTasks [t]
    rw [hget] at hd
    rw [htake]
    exact ht d hd

/-- Main invariant induction: running the scheduler loop with the exact
fuel, a topologically sound prefix, full presence of dependencies, and a
rank certificate on the remaining tasks yields a topologically sound list. -/
theorem sortTasksGo_topoOK (rank : String → ℕ) :
    ∀ (fuel : ℕ) (remaining sortedTasks : List Task),
      remaining.length = fuel →
      topoOK sortedTasks →
      (∀ t ∈ remaining, ∀ d ∈ t.dependencies,
        d ∈ sortedTasks.map Task.id ∨ d ∈ remaining.map Task.id) →
      (∀ t ∈ remaining, ∀ d ∈ t.dependencies,
        d ∈ remaining.map Task.id → rank d < rank t.id) →
      topoOK (sortTasksGo fuel remaining sortedTasks) := by
  intro fuel
  induction fuel with
  | zero =>
    intro remaining sortedTasks hfuel hOK _ _
    rw [List.length_eq_zero] at hfuel
    subst hfuel
    simpa [sortTasksGo] using hOK
  | succ n ih =>
    intro remaining sortedTasks hfuel hOK hpres hrank
    have hne : remaining ≠ [] := by
      intro hnil
      rw [hnil] at hfuel
      simp at hfuel
    obtain ⟨tr, htrmem, htrready⟩ :=
      exists_ready_task sortedTasks remaining rank hne hpres hrank
    have hfilter : tr ∈ remaining.filter (readyForOrder sortedTasks) :=
      List.mem_filter.mpr ⟨htrmem, htrready⟩
    have hfilterne : remaining.filter (readyForOrder sortedTasks) ≠ [] :=
      List.ne_nil_of_mem hfilter
    cases hready : pySortByPriorityDesc (remaining.filter (readyForOrder sortedTasks)) with
    | nil =>
      exfalso
      have hperm := pySortByPriorityDesc_perm (remaining.filter (readyForOrder sortedTasks))
      rw [hready] at hperm
      exact hfilterne (hperm.nil_eq).symm
    | cons t0 rest =>
      have ht0filter : t0 ∈ remaining.filter (readyForOrder sortedTasks) := by
        have : t0 ∈ pySortByPriorityDesc (remaining.filter (readyForOrder sortedTasks)) := by
          rw [hready]
          exact List.mem_cons_self t0 rest
        exact mem_of_mem_pySortByPriorityDesc this
      have ht0mem : t0 ∈ remaining := List.mem_of_mem_filter ht0filter
      have ht0ready : readyForOrder sortedTasks t0 = true :=
        List.of_mem_filter ht0filter
      have ht0deps : ∀ d ∈ t0.dependencies, d ∈ sortedTasks.map Task.id :=
        (readyForOrder_eq_true_iff sortedTasks t0).mp ht0ready
      have hne2 : remaining.isEmpty = false := by
        cases remaining with
        | nil => cases hne rfl
        | cons a l => rfl
      have hstep : sortTasksGo (n + 1) remaining sortedTasks =
          sortTasksGo n (remaining.erase t0) (sortedTasks ++ [t0]) := by
        cases remaining with
        | nil => cases hne rfl
        | cons a l => simp [sortTasksGo, hready]
      rw [hstep]
      have hcons := List.perm_cons_erase ht0mem
      refine ih (remaining.erase t0) (sortedTasks ++ [t0]) ?_ ?_ ?_ ?_
      · rw [List.length_erase_of_mem ht0mem, hfuel]
        omega
      · exact topoOK_append sortedTasks t0 hOK ht0deps
      · intro u humem d hd
        have humem2 : u ∈ remaining := List.mem_of_mem_erase humem
        rcases hpres u humem2 d hd with h | h
        · left
          rw [List.map_append]
          exact List.mem_append_left _ h
        · obtain ⟨v, hvmem, hvid⟩ := List.mem_map.mp h
          have : v ∈ t0 :: remaining.erase t0 := hcons.mem_iff.mp hvmem
          rcases List.mem_cons.mp this with rfl | hv2
          · left
            rw [List.map_append]
            refine List.mem_append_right _ ?_
            simp [hvid]
          · right
            exact List.mem_map.mpr ⟨v, hv2, hvid⟩
      · intro u humem d hd hdmem
        have humem2 : u ∈ remaining := List.mem_of_mem_erase humem
        have hdmem2 : d ∈ remaining.map Task.id := by
          obtain ⟨v, hvmem, hvid⟩ := List.mem_map.mp hdmem
          exact List.mem_map.mpr ⟨v, List.mem_of_mem_erase hvmem, hvid⟩
        exact hrank u humem2 d hd hdmem2

/-- C3 amended: for every task set in which every dependency id refers to a
task of the set (no dangling dependencies) and whose dependency graph is
acyclic — certified by a rank strictly decreasing along dependency edges —
the scheduler's output places every task strictly after each of its
dependencies: each dependency id of the task at position `i` is the id of a
task at a position before `i` (`topoOK`). -/
theorem sortTasks_topological_when_no_dangling (ts : List Task)
    (rank : String → ℕ)
    (hpresent : ∀ t ∈ ts, ∀ d ∈ t.dependencies, d ∈ ts.map Task.id)
    (hrank : ∀ t ∈ ts, ∀ d ∈ t.dependencies, rank d < rank t.id) :
    topoOK (sortTasksForExecution ts) := by
  refine sortTasksGo_topoOK rank ts.length ts [] rfl ?_ ?_ ?_
  · intro i hi
    cases hi
  · intro t ht d hd
    right
    exact hpresent t ht d hd
  · intro t ht d hd _
    exact hrank t ht d hd

/-- Witness for `sortTasks_topological_when_no_dangling` on the concrete
dependency chain `[topoTaskA, topoTaskB]` with rank certificate `rankAB`. -/
theorem sortTasks_topological_when_no_dangling_witness :
    (∀ t ∈ [topoTaskA, topoTaskB], ∀ d ∈ t.dependencies,
        d ∈ [topoTaskA, topoTaskB].map Task.id)
    ∧ topoOK (sortTasksForExecution [topoTaskA, topoTaskB]) :=
  ⟨by decide,
   sortTasks_topological_when_no_dangling [topoTaskA, topoTaskB] rankAB
     (by decide) (by decide)⟩

/-! ## Agent capacity invariant -/

/-- Monad law for `Except`, ok case (definitional; stated for rewriting). -/
theorem exceptBind_ok {ε α β : Type} (a : α) (f : α → Except ε β) :
    (Except.ok a >>= f) = f a := rfl

/-- Monad law for `Except`, error case (definitional; stated for rewriting). -/
theorem exceptBind_error {ε α β : Type} (e : ε) (f : α → Except ε β) :
    ((Except.error e : Except ε α) >>= f) = Except.error e := rfl

/-- A bind ending in `ok` with a fixed second component determines that
component of the result. -/
theorem exceptBindPair_ok {ε α β γ : Type} (x : Except ε α) (f : α → β) (c : γ)
    (out : β × γ) (h : (x >>= fun w => Except.ok (f w, c)) = .ok out) :
    out.2 = c := by
  cases x with
  | error e => rw [exceptBind_error] at h; cases h
  | ok a =>
    rw [exceptBind_ok] at h
    have := Except.ok.inj h
    rw [← this]

/-- Updating an existing key of a modelled Python dict makes later reads of
that key return the new value. -/
theorem pyDictGet_pyDictSet_self (d : List (String × Int)) (k : String) (w v : Int)
    (h : pyDictGet d k = some w) :
    pyDictGet (pyDictSet d k v) k = some v := by
  induction d with
  | nil => simp [pyDictGet] at h
  | cons e rest ih =>
    cases hk : (e.1 == k) with
    | true => simp [pyDictGet, pyDictSet, List.find?, hk]
    | false =>
      have h2 : pyDictGet rest k = some w := by
        simpa [pyDictGet, List.find?, hk] using h
      simpa [pyDictGet, pyDictSet, List.find?, hk] using ih h2

/-- Registry lookup after replacing the same type. -/
theorem AgentPool.get_set_self (p : AgentPool) (atype : AgentType) (a : AgentState) :
    (p.set atype a).get atype = a := by
  cases atype <;> rfl

/-- Registry lookup after replacing a different type. -/
theorem AgentPool.get_set_other (p : AgentPool) (atype atype2 : AgentType)
    (a : AgentState) (h : atype2 ≠ atype) :
    (p.set atype a).get atype2 = p.get atype2 := by
  cases atype <;> cases atype2 <;> first | rfl | exact absurd rfl h

/-- `assign_task` refuses — returning `False` and leaving agent and task
untouched — when the agent is unavailable or already at capacity. -/
theorem assignTask_refuses (a : AgentState) (atype : AgentType) (t : Task)
    (h : a.isAvailable = false ∨ getMaxConcurrentTasks ≤ a.currentTasks.length) :
    assignTask a atype t = (false, a, t) := by
  rcases h with h | h
  · simp [assignTask, h]
  · simp [assignTask, h]

/-- A successful `assign_task` presupposes spare capacity and adds exactly
one task id. -/
theorem assignTask_true_capacity (a : AgentState) (atype : AgentType) (t : Task)
    (a2 : AgentState) (t2 : Task) (h : assignTask a atype t = (true, a2, t2)) :
    a.currentTasks.length < getMaxConcurrentTasks ∧
    a2.currentTasks.length = a.currentTasks.length + 1 := by
  unfold assignTask at h
  split at h
  · cases h
  · rename_i hcond
    simp only [Bool.or_eq_true, Bool.not_eq_true', decide_eq_true_eq, not_or] at hcond
    obtain ⟨h1, h2⟩ := hcond
    injection h with hb hrest
    injection hrest with ha ht
    constructor
    · omega
    · rw [← ha]
      simp

/-- `assign_task` never pushes an agent beyond capacity. -/
theorem assignTask_capacity (a : AgentState) (atype : AgentType) (t : Task)
    (h : a.currentTasks.length ≤ getMaxConcurrentTasks) :
    ((assignTask a atype t).2.1).currentTasks.length ≤ getMaxConcurrentTasks := by
  rcases hres : assignTask a atype t with ⟨success, a2, t2⟩
  cases success with
  | false =>
    unfold assignTask at hres
    split at hres
    · injection hres with hb hrest
      injection hrest with ha ht
      rw [← ha]
      exact h
    · cases hres
  | true =>
    obtain ⟨hlt, hlen⟩ := assignTask_true_capacity a atype t a2 t2 hres
    simp only [hlen]
    omega

/-- `_start_task_execution` preserves the pool capacity invariant. -/
theorem startTaskExecution_poolOK (b : SimBehavior) (t : Task) (atype : AgentType)
    (st : SimState) (pool : AgentPool) (out : SimState × AgentPool)
    (hOK : poolCapacityOK pool)
    (hout : startTaskExecution b t atype st pool = .ok out) :
    poolCapacityOK out.2 := by
  unfold startTaskExecution at hout
  rcases hassign : assignTask (pool.get atype) atype t with ⟨success, a2, t2⟩
  rw [hassign] at hout
  cases success with
  | false =>
    have h := Except.ok.inj hout
    rw [← h]
    exact hOK
  | true =>
    have h2 : out.2 = pool.set atype a2 := exceptBindPair_ok _ _ _ out hout
    rw [h2]
    intro atype2
    by_cases heq : atype2 = atype
    · rw [heq, AgentPool.get_set_self]
      obtain ⟨hlt, hlen⟩ := assignTask_true_capacity _ atype t a2 t2 hassign
      omega
    · rw [AgentPool.get_set_other pool atype atype2 a2 heq]
      exact hOK atype2

/-- `_start_new_tasks`' slot loop preserves the pool capacity invariant. -/
theorem startNewTasksGo_poolOK (b : SimBehavior) :
    ∀ (slots : ℕ) (st : SimState) (pool : AgentPool) (out : SimState × AgentPool),
      poolCapacityOK pool →
      startNewTasksGo b slots st pool = .ok out →
      poolCapacityOK out.2 := by
  intro slots
  induction slots with
  | zero =>
    intro st pool out hOK hout
    have h := Except.ok.inj hout
    rw [← h]
    exact hOK
  | succ n ih =>
    intro st pool out hOK hout
    unfold startNewTasksGo at hout
    split at hout
    · have h := Except.ok.inj hout
      rw [← h]
      exact hOK
    · cases hr : findNextAvailableTask st with
      | error e =>
        rw [hr, exceptBind_error] at hout
        cases hout
      | ok r =>
        rw [hr] at hout
        simp only [exceptBind_ok] at hout
        cases r with
        | none =>
          have h := Except.ok.inj hout
          rw [← h]
          exact hOK
        | some p =>
          rcases p with ⟨t, st2⟩
          have hout2 : (match selectAgentForExecution (b.selectOracle st2.llmCalls)
              { st2 with llmCalls := st2.llmCalls + 1 } with
            | (none, st3) => startNewTasksGo b n st3 pool
            | (some atype, st3) =>
                startTaskExecution b t atype st3 pool >>= fun q =>
                  startNewTasksGo b n q.1 q.2) = .ok out := hout
          clear hout
          cases ho : b.selectOracle st2.llmCalls with
          | raises msg =>
            rw [ho] at hout2
            have hout3 : (startTaskExecution b t .developer
                (logError ("Error selecting agent: " ++ msg)
                  { st2 with llmCalls := st2.llmCalls + 1 }) pool >>= fun q =>
                startNewTasksGo b n q.1 q.2) = .ok out := hout2
            cases hs : startTaskExecution b t .developer
                (logError ("Error selecting agent: " ++ msg)
                  { st2 with llmCalls := st2.llmCalls + 1 }) pool with
            | error e =>
              rw [hs, exceptBind_error] at hout3
              cases hout3
            | ok q =>
              rw [hs] at hout3
              simp only [exceptBind_ok] at hout3
              exact ih q.1 q.2 out
                (startTaskExecution_poolOK b t .developer _ pool q hOK hs) hout3
          | returns s =>
            rw [ho] at hout2
            have hout3 : (startTaskExecution b t
                ((agentMapping (s.getD "developer")).getD .developer)
                { st2 with llmCalls := st2.llmCalls + 1 } pool >>= fun q =>
                startNewTasksGo b n q.1 q.2) = .ok out := hout2
            cases hs : startTaskExecution b t
                ((agentMapping (s.getD "developer")).getD .developer)
                { st2 with llmCalls := st2.llmCalls + 1 } pool with
            | error e =>
              rw [hs, exceptBind_error] at hout3
              cases hout3
            | ok q =>
              rw [hs] at hout3
              simp only [exceptBind_ok] at hout3
              exact ih q.1 q.2 out
                (startTaskExecution_poolOK b t _ _ pool q hOK hs) hout3

/-- The round loop preserves the pool capacity invariant
(`_process_running_tasks` never touches the agents). -/
theorem simulateRoundsGo_poolOK (b : SimBehavior) (mct : Int) :
    ∀ (fuel rounds : ℕ) (st : SimState) (pool : AgentPool)
      (out : SimState × AgentPool × ℕ),
      poolCapacityOK pool →
      simulateRoundsGo b mct fuel rounds st pool = .ok out →
      poolCapacityOK out.2.1 := by
  intro fuel
  induction fuel with
  | zero =>
    intro rounds st pool out hOK hout
    have h := Except.ok.inj hout
    rw [← h]
    exact hOK
  | succ n ih =>
    intro rounds st pool out hOK hout
    unfold simulateRoundsGo at hout
    split at hout
    · have h := Except.ok.inj hout
      rw [← h]
      exact hOK
    · have hout2 : (processRunningTasks
          (logExecutionState st (s!"Execution Round {rounds + 1}")) >>= fun stB =>
          startNewTasks b stB pool mct >>= fun q =>
            simulateRoundsGo b mct n (rounds + 1)
              { q.1 with currentTime := q.1.currentTime + 30 } q.2) = .ok out := hout
      clear hout
      cases hp : processRunningTasks
          (logExecutionState st (s!"Execution Round {rounds + 1}")) with
      | error e =>
        rw [hp, exceptBind_error] at hout2
        cases hout2
      | ok stB =>
        rw [hp] at hout2
        simp only [exceptBind_ok] at hout2
        cases hn : startNewTasks b stB pool mct with
        | error e =>
          rw [hn, exceptBind_error] at hout2
          cases hout2
        | ok q =>
          rw [hn] at hout2
          simp only [exceptBind_ok] at hout2
          have hq : poolCapacityOK q.2 :=
            startNewTasksGo_poolOK b _ stB pool q hOK hn
          exact ih (rounds + 1) _ q.2 out hq hout2

/-- C5: the per-agent concurrency bound.  `assign_task` refuses whenever the
agent is unavailable or already at `get_max_concurrent_tasks()` (= 3) tasks
and otherwise adds one task while staying within the bound, so a full
simulation run starting from a within-capacity pool ends (and stays, by the
same per-step lemmas) within capacity for every agent type; and completing
a task releases one unit of the per-type workload counter (floored at 0). -/
theorem agent_capacity_invariant (a : AgentState) (atype : AgentType) (t : Task) :
    ((a.isAvailable = false ∨ getMaxConcurrentTasks ≤ a.currentTasks.length) →
      assignTask a atype t = (false, a, t))
    ∧ (a.currentTasks.length ≤ getMaxConcurrentTasks →
        ((assignTask a atype t).2.1).currentTasks.length ≤ getMaxConcurrentTasks)
    ∧ (∀ (b : SimBehavior) (mct : Int) (st : SimState) (pool : AgentPool)
        (out : SimState × AgentPool × ExecutionResults),
        poolCapacityOK pool →
        simulateAutonomousExecution b st pool mct = .ok out →
        poolCapacityOK out.2.1)
    ∧ (∀ (st st2 : SimState) (w : Int),
        completeTaskSimulation t atype st = .ok st2 →
        pyDictGet st.agentWorkloads atype.value = some w →
        pyDictGet st2.agentWorkloads atype.value = some (max 0 (w - 1))) := by
  refine ⟨assignTask_refuses a atype t, assignTask_capacity a atype t, ?_, ?_⟩
  · intro b mct st pool out hOK hout
    unfold simulateAutonomousExecution at hout
    cases hr : simulateRoundsGo b mct maxRounds 0 st pool with
    | error e =>
      rw [hr, exceptBind_error] at hout
      cases hout
    | ok q =>
      rw [hr] at hout
      simp only [exceptBind_ok] at hout
      have h := Except.ok.inj hout
      have hq : poolCapacityOK q.2.1 :=
        simulateRoundsGo_poolOK b mct maxRounds 0 st pool q hOK hr
      rw [← h]
      exact hq
  · intro st st2 w hcomplete hget
    unfold completeTaskSimulation at hcomplete
    cases hv : st.completedTasks with
    | int m =>
      rw [hv] at hcomplete
      have hc2 : (Except.error PyErr.attributeError : Except PyErr SimState) =
          Except.ok st2 := hcomplete
      cases hc2
    | list l =>
      rw [hv] at hcomplete
      have hc2 : (pyDictGetE st.agentWorkloads atype.value >>= fun w2 =>
          Except.ok (logTaskCompletion { t with status := TaskStatus.completed } atype
            { st with
                completedTasks :=
                  PyVal.list (l ++ [{ t with status := TaskStatus.completed }]),
                agentWorkloads :=
                  pyDictSet st.agentWorkloads atype.value (max 0 (w2 - 1)) })) =
          Except.ok st2 := hcomplete
      clear hcomplete
      have hgetE : pyDictGetE st.agentWorkloads atype.value = Except.ok w := by
        unfold pyDictGetE
        rw [hget]
      rw [hgetE] at hc2
      simp only [exceptBind_ok] at hc2
      have h := Except.ok.inj hc2
      rw [← h]
      show pyDictGet (pyDictSet st.agentWorkloads atype.value (max 0 (w - 1)))
        atype.value = some (max 0 (w - 1))
      exact pyDictGet_pyDictSet_self st.agentWorkloads atype.value w (max 0 (w - 1)) hget

/-- Witness for `agent_capacity_invariant`: a full agent refuses a new task;
a fresh agent stays within capacity; a one-round empty run preserves the
initial pool's capacity invariant; completing a task in the initial state of
`simpleProject` floors the developer workload at 0. -/
theorem agent_capacity_invariant_witness :
    assignTask fullAgent .developer simpleTask = (false, fullAgent, simpleTask) ∧
    ((assignTask freshAgent .developer simpleTask).2.1).currentTasks.length ≤
      getMaxConcurrentTasks ∧
    pyDictGet completedStateExample.agentWorkloads AgentType.developer.value =
      some (max 0 (0 - 1)) := by
  refine ⟨?_, ?_, ?_⟩
  · exact (agent_capacity_invariant fullAgent .developer simpleTask).1
      (Or.inr (by decide))
  · exact (agent_capacity_invariant freshAgent .developer simpleTask).2.1 (by decide)
  · exact (agent_capacity_invariant freshAgent .developer simpleTask).2.2.2
      (initialSimulationState simpleProject) completedStateExample 0 rfl rfl

end AITaskPlanner
